import Mathlib

/-!
Shallow embedding of the crawler core of `src/ingest.py` (the `teamcomp`
repository): the per-worker fetch/retry loop `get_with_retry`, the match
persisting routine `process_match`, the enqueue routine
`add_player_match_history`, one iteration of the worker loop
`listen_and_commit`, and the seen-state bootstrap performed by `main`.

Conventions of the embedding:
* HTTP traffic is modelled by a server function `Nat → Nat` giving the status
  code of the n-th request issued for one logical fetch; payloads of
  successful fetches come from an `Env` record.
* Python `set`s become `List String` with a duplicate-avoiding `setAdd`;
  Python dict lookup becomes an association-list lookup returning
  `Except PyError` (a missing key is a `KeyError`).
* sqlite `INSERT` + `commit` become appends to a `Store` record.  Each
  statement is committed separately, exactly as in `process_match`
  (`conn.commit()` after the match row and after every participant row), so a
  Python exception raised mid-routine leaves the rows committed so far in the
  store.
* `exit(1)` raises `SystemExit`; in a `threading.Thread` worker this
  terminates only that thread (the `threading` module swallows `SystemExit`),
  which the model renders as the worker's `alive` flag dropping to `false`
  while every other worker's state is untouched.
* The shared lock is modelled by `lockHeldBy : Option Nat`; a worker whose
  loop iteration would call `lock.acquire()` cannot step while another worker
  holds the lock, and a worker that dies between `acquire` and `release`
  leaves the lock held forever.
-/

namespace Teamcomp

abbrev MatchId := String

/-- `REQUEST_RETRY_COUNT` from `ingest.py`: how many times a request is
re-sent before giving up. -/
def REQUEST_RETRY_COUNT : Nat := 5

/-- The statuses retried by the `while` loop of `get_with_retry`:
429, 500, 503. -/
def isTransientStatus (s : Nat) : Bool :=
  s == 429 || s == 500 || s == 503

/-- Outcome of `get_with_retry`: either the worker thread is killed by
`exit(1)` (status 403 on the *first* response), or some response is returned
together with the total number of requests issued. -/
inductive RetryResult where
  | workerExit : RetryResult
  | response (status : Nat) (requests : Nat) : RetryResult
deriving DecidableEq, Repr

/-- The retry `while` loop of `get_with_retry`: starting from the response
with index `idx`, keep re-requesting while the current response is transient
and retry attempts remain; returns the index of the response finally
returned.  `remaining` is `REQUEST_RETRY_COUNT - attempts`. -/
def retryLoop (server : Nat → Nat) (idx : Nat) : Nat → Nat
  | 0 => idx
  | n + 1 => if isTransientStatus (server idx) then retryLoop server (idx + 1) n else idx

/-- `get_with_retry(url)` from `ingest.py`, with the successive responses the
network would give abstracted as `server : Nat → Nat` (status of the n-th
request).  A 403 on the first response logs and calls `exit(1)`; otherwise
transient statuses are retried up to `REQUEST_RETRY_COUNT` times and the last
response is returned whatever its status. -/
def get_with_retry (server : Nat → Nat) : RetryResult :=
  if server 0 == 403 then
    .workerExit
  else
    let finalIdx := retryLoop server 0 REQUEST_RETRY_COUNT
    .response (server finalIdx) (finalIdx + 1)

/-- `requests.Response.raise_for_status`: raises an `HTTPError` exactly for
status codes in [400, 600). -/
def raise_for_status (status : Nat) : Bool :=
  decide (400 ≤ status) && decide (status < 600)

theorem retryLoop_le (server : Nat → Nat) (idx n : Nat) :
    retryLoop server idx n ≤ idx + n := by
  induction n generalizing idx with
  | zero => simp [retryLoop]
  | succ k ih =>
    simp only [retryLoop]
    split
    · exact le_trans (ih (idx + 1)) (by omega)
    · omega

theorem retryLoop_not_transient_or_max (server : Nat → Nat) (idx n : Nat) :
    isTransientStatus (server (retryLoop server idx n)) = false ∨
      retryLoop server idx n = idx + n := by
  induction n generalizing idx with
  | zero => right; simp [retryLoop]
  | succ k ih =>
    simp only [retryLoop]
    by_cases h : isTransientStatus (server idx) = true
    · rw [if_pos h]
      rcases ih (idx + 1) with h1 | h1
      · left; exact h1
      · right; omega
    · rw [if_neg h]
      left
      exact Bool.not_eq_true _ ▸ h

/-! ## Data model: JSON payloads and the sqlite store -/

/-- Python exceptions that the worker loop can observe. -/
inductive PyError where
  | keyError (key : String) : PyError
  | integrityError : PyError
  | httpError (status : Nat) : PyError
  | indexError : PyError
  | typeErrorNone : PyError
  | summonerNotFound (name : String) : PyError
deriving DecidableEq, Repr

/-- One entry of `info["participants"]` in a match-detail payload: the
identity fields the crawler reads by name, plus the remaining JSON fields as
an association list (the stat columns looked up via the `Participants`
schema). -/
structure ParticipantPayload where
  summonerName : String
  summonerId : String
  stats : List (String × Int)
deriving DecidableEq, Repr

/-- The `info` object of a match-detail payload, restricted to the fields
`process_match` and the filter in `listen_and_commit` read. `teams0win` is
`info["teams"][0]["win"]`. -/
structure MatchInfo where
  gameVersion : String
  gameCreation : Int
  gameDuration : Int
  gameId : Int
  gameMode : String
  gameType : String
  teams0win : Bool
  participants : List ParticipantPayload
deriving DecidableEq, Repr

/-- A match-detail payload: `metadata.matchId` plus `info`. -/
structure MatchData where
  matchId : MatchId
  info : MatchInfo
deriving DecidableEq, Repr

/-- A row of the `Matches` table. -/
structure MatchRow where
  gameVersion : String
  matchId : MatchId
  gameCreation : Int
  gameDuration : Int
  gameId : Int
  winner : Nat
deriving DecidableEq, Repr

/-- A row of the `Participants` table: the stat values in schema-column
order, plus the `matchId` foreign key appended last (as in
`process_match`). -/
structure ParticipantRow where
  values : List Int
  matchId : MatchId
deriving DecidableEq, Repr

/-- A row of the `ChampionMastery` table. -/
structure MasteryRow where
  championId : Int
  championLevel : Int
  championPoints : Int
  summonerName : String
deriving DecidableEq, Repr

/-- One mastery record as returned by `get_champion_mastery`. -/
structure MasteryRecord where
  championId : Int
  championLevel : Int
  championPoints : Int
deriving DecidableEq, Repr

/-- The durable sqlite database (`league.db`): the four tables the crawler
writes and reads. -/
structure Store where
  matchesTable : List MatchRow
  participants : List ParticipantRow
  masteries : List MasteryRow
  seenPlayersTable : List String
deriving DecidableEq, Repr

/-- Python `set.add`: insert without duplicating. -/
def setAdd (s : List String) (x : String) : List String :=
  if x ∈ s then s else x :: s

/-- Python dict lookup `d[k]`: a missing key raises `KeyError`. -/
def dictGet (d : List (String × Int)) (k : String) : Except PyError Int :=
  match d.find? (fun p => p.1 == k) with
  | some p => .ok p.2
  | none => .error (.keyError k)

/-- Lexicographic order on code points, as Python compares strings. -/
def charListLe : List Char → List Char → Bool
  | [], _ => true
  | _ :: _, [] => false
  | a :: as, b :: bs =>
    if a.toNat < b.toNat then true
    else if b.toNat < a.toNat then false
    else charListLe as bs

/-- `a ≤ b` on strings by code points, as Python compares strings. -/
def strLe (a b : String) : Bool := charListLe a.toList b.toList

/-- Insertion into a sorted list of field names (Python `sorted`). -/
def insertSorted (x : String) : List String → List String
  | [] => [x]
  | y :: ys => if strLe x y then x :: y :: ys else y :: insertSorted x ys

/-- `process_match` reads the `Participants` schema columns via
`PRAGMA table_info`, drops `matchId`, and sorts the rest by name; this
computes that field list from the schema's column names. -/
def participantFields (schemaColumns : List String) : List String :=
  ((schemaColumns.filter (fun f => f ≠ "matchId")).foldr insertSorted [])

/-- Modelled from the spec: `schema.sql` is not part of `src/`, and the spec
declares `Matches(matchId PK, ...)`; a plain `INSERT INTO Matches` for an
already-present `matchId` therefore violates the primary key and raises
`sqlite3.IntegrityError` before writing anything. -/
def insertMatches (store : Store) (row : MatchRow) : Except PyError Store :=
  if store.matchesTable.any (fun m => m.matchId == row.matchId) then
    .error .integrityError
  else
    .ok { store with matchesTable := store.matchesTable ++ [row] }

/-- The values-building loop of `process_match`: look each sorted schema
field up in the participant's JSON; a missing field raises `KeyError`. -/
def rowValues (fields : List String) (p : ParticipantPayload) :
    Except PyError (List Int) :=
  fields.mapM (fun f => dictGet p.stats f)

/-- Mutable state threaded through `process_match`: the database and the
shared `seen_masteries` set. -/
structure ProcState where
  store : Store
  seenMasteries : List String
deriving DecidableEq, Repr

/-- The body of the per-participant loop of `process_match` once the row
values are built: insert the participant row and commit, then (if the
summoner's mastery was not fetched yet) fetch and insert mastery rows, mark
the summoner, and commit. -/
def participantCommit (matchId : MatchId) (masteryOf : String → List MasteryRecord)
    (p : ParticipantPayload) (vals : List Int) (st : ProcState) : ProcState :=
  let store1 := { st.store with
    participants := st.store.participants ++ [⟨vals, matchId⟩] }
  if p.summonerName ∈ st.seenMasteries then
    { st with store := store1 }
  else
    let rows := (masteryOf p.summonerId).map
      (fun m => MasteryRow.mk m.championId m.championLevel m.championPoints
        p.summonerName)
    { store := { store1 with masteries := store1.masteries ++ rows },
      seenMasteries := setAdd st.seenMasteries p.summonerName }

/-- The per-participant loop of `process_match`.  A `KeyError` while
building the row values aborts the loop, keeping everything committed so
far. -/
def processParticipants (fields : List String) (matchId : MatchId)
    (masteryOf : String → List MasteryRecord) :
    List ParticipantPayload → ProcState → ProcState × Option PyError
  | [], st => (st, none)
  | p :: rest, st =>
    match rowValues fields p with
    | .error e => (st, some e)
    | .ok vals =>
      processParticipants fields matchId masteryOf rest
        (participantCommit matchId masteryOf p vals st)

/-- `process_match(data, conn, seen_masteries, api_key)` from `ingest.py`:
insert the `Matches` row and commit, then run the participant loop.  The
second component reports the Python exception, if any, that escaped the
routine; because every insert is committed individually, the returned store
always holds exactly the rows committed before the failure point. -/
def process_match (fields : List String) (data : MatchData)
    (masteryOf : String → List MasteryRecord) (st : ProcState) :
    ProcState × Option PyError :=
  let winner : Nat := if data.info.teams0win then 100 else 200
  let row : MatchRow :=
    ⟨data.info.gameVersion, data.matchId, data.info.gameCreation,
     data.info.gameDuration, data.info.gameId, winner⟩
  match insertMatches st.store row with
  | .error e => (st, some e)
  | .ok store1 =>
      processParticipants fields data.matchId masteryOf data.info.participants
        { st with store := store1 }

/-! ## The environment: remote data service seen by one run -/

/-- The remote data service as one worker observes it, under this worker's
credential.  Every endpoint goes through `get_with_retry`, so each gets its
own status sequence (`…Server`): the account lookup
(`get_player_info_by_summoner_name`), the match-history listing
(`get_matches_by_puuid`) and the match detail (`get_match_by_match_id`) can
each hit the `403 → exit(1)` path or a `raise_for_status` `HTTPError`, not
just succeed.  `accountNotFound name` says whether a final 404 body carries
the "summoner not found" message (the source checks the message before
`raise_for_status`); `accountOf`/`historyOf`/`matchPayload` are the decoded
bodies of successful responses. -/
structure Env where
  accountServer : String → Nat → Nat
  accountNotFound : String → Bool
  accountOf : String → String
  historyServer : String → Nat → Nat
  historyOf : String → List MatchId
  matchServer : MatchId → Nat → Nat
  matchPayload : MatchId → MatchData
  masteryOf : String → List MasteryRecord
  schemaColumns : List String

/-- Outcome of `get_player_info_by_summoner_name`: the `exit(1)` path of
`get_with_retry`, the raised `SummonerNotFoundException` (404 with the
"summoner not found" message, checked before `raise_for_status`), an
`HTTPError` from `raise_for_status`, or the decoded puuid. -/
inductive AccountFetch where
  | exitWorker : AccountFetch
  | notFound : AccountFetch
  | httpError (status : Nat) : AccountFetch
  | ok (puuid : String) : AccountFetch
deriving DecidableEq, Repr

/-- `get_player_info_by_summoner_name(summoner_name, api_key)`:
`get_with_retry`, then the 404 "summoner not found" check, then
`raise_for_status`, then JSON decoding. -/
def get_player_info_by_summoner_name (env : Env) (name : String) :
    AccountFetch :=
  match get_with_retry (env.accountServer name) with
  | .workerExit => .exitWorker
  | .response s _ =>
    if s == 404 && env.accountNotFound name then .notFound
    else if raise_for_status s then .httpError s
    else .ok (env.accountOf name)

/-- Outcome of `get_matches_by_puuid`: the `exit(1)` path, an `HTTPError`
from `raise_for_status`, or the decoded list of match ids. -/
inductive HistoryFetch where
  | exitWorker : HistoryFetch
  | httpError (status : Nat) : HistoryFetch
  | ok (ids : List MatchId) : HistoryFetch
deriving DecidableEq, Repr

/-- `get_matches_by_puuid(puuid, api_key)`: `get_with_retry` followed by
`raise_for_status` and JSON decoding. -/
def get_matches_by_puuid (env : Env) (puuid : String) : HistoryFetch :=
  match get_with_retry (env.historyServer puuid) with
  | .workerExit => .exitWorker
  | .response s _ =>
    if raise_for_status s then .httpError s else .ok (env.historyOf puuid)

/-- The in-memory shared state of `listen_and_commit` threads: the three
dedup sets, the database, and the `threading.Lock` (`lockHeldBy = some i`
means thread `i` holds the lock). -/
structure SystemState where
  seenPlayers : List String
  seenMatches : List MatchId
  seenMasteries : List String
  store : Store
  lockHeldBy : Option Nat
deriving DecidableEq, Repr

/-- Thread-local state of one `listen_and_commit` worker: its seed player,
its `match_ids` deque, `last_valid_match`, and whether the thread is still
running. -/
structure Worker where
  seedName : String
  queue : List MatchId
  lastValidMatch : Option MatchData
  alive : Bool
deriving DecidableEq, Repr

/-- The queue-filling loop at the end of `add_player_match_history`:
`for match in match_data: if match not in seen_matches: match_ids.append(match)`. -/
def enqueueNew (seenMatches : List MatchId) (queue : List MatchId)
    (history : List MatchId) : List MatchId :=
  history.foldl (fun q m => if m ∈ seenMatches then q else q ++ [m]) queue

/-- Result of `add_player_match_history`.  `ok = true, died = false`: the
routine completed.  `ok = false, died = false`: it raised
`SummonerNotFoundException` (after `seen_players.add(name)` had already
run).  `died = true`: one of its two network calls raised `SystemExit`
(`exit(1)` on a 403 first response) or an `HTTPError` from
`raise_for_status` — neither is `SummonerNotFoundException`, so the
exception escapes the routine at every call site.  `seenPlayers`, `store`
and `queue` are always the values as mutated up to the raise point;
`seenMatches` is returned so theorems can state what the routine does (and
does not do) to it. -/
structure AddHistResult where
  ok : Bool
  died : Bool
  seenPlayers : List String
  seenMatches : List MatchId
  store : Store
  queue : List MatchId
deriving DecidableEq, Repr

/-- `add_player_match_history(conn, name, match_ids, seen_players,
seen_matches, api_key)` from `ingest.py`: add the name to `seen_players`,
resolve the puuid (raising if unknown — and possibly dying on
`exit(1)`/`HTTPError`), insert the name into the `SeenPlayers` table, fetch
the match history (again possibly dying), and append every id not in
`seen_matches` to the queue. -/
def add_player_match_history (env : Env) (name : String) (queue : List MatchId)
    (seenPlayers : List String) (seenMatches : List MatchId) (store : Store) :
    AddHistResult :=
  let sp1 := setAdd seenPlayers name
  match get_player_info_by_summoner_name env name with
  | .exitWorker => ⟨false, true, sp1, seenMatches, store, queue⟩
  | .httpError _ => ⟨false, true, sp1, seenMatches, store, queue⟩
  | .notFound => ⟨false, false, sp1, seenMatches, store, queue⟩
  | .ok puuid =>
    let store1 := { store with seenPlayersTable := store.seenPlayersTable ++ [name] }
    match get_matches_by_puuid env puuid with
    | .exitWorker => ⟨false, true, sp1, seenMatches, store1, queue⟩
    | .httpError _ => ⟨false, true, sp1, seenMatches, store1, queue⟩
    | .ok hist => ⟨true, false, sp1, seenMatches, store1, enqueueNew seenMatches queue hist⟩

/-- Outcome of `get_match_by_match_id`: `exitWorker` is the `exit(1)` path of
`get_with_retry` (403 on the first response), `httpError` is
`raise_for_status` firing on the response that survived the retries, and
`payload` is a parsed JSON body. -/
inductive MatchFetch where
  | exitWorker : MatchFetch
  | httpError (status : Nat) : MatchFetch
  | payload (d : MatchData) : MatchFetch
deriving DecidableEq, Repr

/-- `get_match_by_match_id(match_id, api_key)`: `get_with_retry` followed by
`raise_for_status` and JSON decoding. -/
def get_match_by_match_id (env : Env) (m : MatchId) : MatchFetch :=
  match get_with_retry (env.matchServer m) with
  | .workerExit => .exitWorker
  | .response s _ =>
    if raise_for_status s then .httpError s else .payload (env.matchPayload m)

/-- The acceptance filter of `listen_and_commit` (lines 349–351): game mode
`CLASSIC`, game type `MATCHED_GAME`, and no participant with summoner id
`BOT`. -/
def matchFilter (info : MatchInfo) : Bool :=
  info.gameMode == "CLASSIC" && info.gameType == "MATCHED_GAME" &&
    info.participants.all (fun p => p.summonerId != "BOT")

/-- Outcome of the refill loop: either every `add_player_match_history` call
completed or raised only `SummonerNotFoundException` (the one exception the
loop catches), or some call raised `SystemExit`/`HTTPError`, which escapes
the loop — `died` carries the shared mutations made up to that point. -/
inductive RefillResult where
  | ok (queue : List MatchId) (seenPlayers : List String) (store : Store) : RefillResult
  | died (seenPlayers : List String) (store : Store) : RefillResult
deriving DecidableEq, Repr

/-- The store component of a refill outcome. -/
def RefillResult.store : RefillResult → Store
  | .ok _ _ st => st
  | .died _ st => st

/-- The refill loop in the `finally` block: for each participant of the last
valid match whose summoner name is not in `seen_players`, run
`add_player_match_history`, catching only `SummonerNotFoundException`; any
`SystemExit` or `HTTPError` raised by the inner network calls escapes the
loop. -/
def refillLoop (env : Env) (seenMatches : List MatchId) :
    List ParticipantPayload → List MatchId → List String → Store →
    RefillResult
  | [], q, sp, st => .ok q sp st
  | p :: rest, q, sp, st =>
    if p.summonerName ∈ sp then refillLoop env seenMatches rest q sp st
    else
      let r := add_player_match_history env p.summonerName q sp seenMatches st
      if r.died then .died r.seenPlayers r.store
      else refillLoop env seenMatches rest r.queue r.seenPlayers r.store

/-- The `finally` block of the worker loop.  `fatal = true` means the `try`
body raised `SystemExit` (the `exit(1)` path), which the `except Exception`
clauses do not catch: the `finally` still runs, and afterwards the thread
dies.  If the queue is empty, the lock is acquired and
`data = last_valid_match` is subscripted: when it is `None` this raises
`TypeError` before `lock.release()`, so the worker dies holding the lock;
and if the refill loop itself raises (`exit(1)` or `HTTPError` on an
account/history fetch), that exception likewise escapes before
`lock.release()` and the worker dies holding the lock. -/
def finallyRefill (env : Env) (i : Nat) (w : Worker) (sh : SystemState)
    (fatal : Bool) : Worker × SystemState :=
  if w.queue.length ≠ 0 then
    ({ w with alive := !fatal }, sh)
  else
    match w.lastValidMatch with
    | none =>
      ({ w with alive := false }, { sh with lockHeldBy := some i })
    | some d =>
      match refillLoop env sh.seenMatches d.info.participants w.queue
        sh.seenPlayers sh.store with
      | .ok q' sp' st' =>
        ({ w with queue := q', alive := !fatal },
         { sh with seenPlayers := sp', store := st' })
      | .died sp' st' =>
        ({ w with alive := false },
         { sh with seenPlayers := sp', store := st', lockHeldBy := some i })

/-- One iteration of the `while True` loop of `listen_and_commit`, for
worker `i`.  `none` means the iteration is blocked on `lock.acquire()`
(every iteration acquires the lock at least once).  The third component of
the result records the match id, if any, whose detail was fetched from the
remote service during the iteration. -/
def listen_and_commit_step (env : Env) (i : Nat) (w : Worker)
    (sh : SystemState) : Option (Worker × SystemState × Option MatchId) :=
  if sh.lockHeldBy.isSome then none
  else some (
    match w.queue with
    | [] =>
      -- popleft of an empty deque raises IndexError, which is caught and
      -- logged; then the finally block runs
      let p := finallyRefill env i w sh false
      (p.1, p.2, none)
    | m :: rest =>
      let w1 := { w with queue := rest }
      if m ∈ sh.seenMatches then
        -- defensive skip under the lock; `continue` still runs the finally
        let p := finallyRefill env i w1 sh false
        (p.1, p.2, none)
      else
        let sh1 := { sh with seenMatches := setAdd sh.seenMatches m }
        match get_match_by_match_id env m with
        | .exitWorker =>
          let p := finallyRefill env i w1 sh1 true
          (p.1, p.2, some m)
        | .httpError _ =>
          -- requests.HTTPError, caught by the worker's except clause
          let p := finallyRefill env i w1 sh1 false
          (p.1, p.2, some m)
        | .payload d =>
          if matchFilter d.info then
            let w2 := { w1 with lastValidMatch := some d }
            let pr := process_match (participantFields env.schemaColumns) d
              env.masteryOf ⟨sh1.store, sh1.seenMasteries⟩
            -- a KeyError or IntegrityError escaping process_match is caught
            -- by the worker's except clauses; rows committed so far remain
            let sh2 :=
              { sh1 with store := pr.1.store, seenMasteries := pr.1.seenMasteries }
            let p := finallyRefill env i w2 sh2 false
            (p.1, p.2, some m)
          else
            let p := finallyRefill env i w1 sh1 false
            (p.1, p.2, some m))

/-- The `SEEDING` phase (lines 316–324 of `listen_and_commit`): acquire the
lock, run `add_player_match_history` for the seed, release.  Any exception —
the re-raised `SummonerNotFoundException`, an `HTTPError`, or `SystemExit`
from `exit(1)` — is raised between `acquire` and `release`, so the thread
dies holding the lock. -/
def seedWorker (env : Env) (i : Nat) (seedName : String) (sh : SystemState) :
    Option (Worker × SystemState) :=
  if sh.lockHeldBy.isSome then none
  else
    let r := add_player_match_history env seedName [] sh.seenPlayers
      sh.seenMatches sh.store
    if r.ok then
      some (⟨seedName, r.queue, none, true⟩,
        { sh with seenPlayers := r.seenPlayers, store := r.store })
    else
      some (⟨seedName, [], none, false⟩,
        { sh with seenPlayers := r.seenPlayers, store := r.store, lockHeldBy := some i })

/-- The seen-state bootstrap of `main` (lines 425–432): rebuild
`seen_players`, `seen_matches` and `seen_masteries` from the `SeenPlayers`,
`Matches` and `ChampionMastery` tables of the durable store. -/
def load_seen_state (store : Store) :
    List String × List MatchId × List String :=
  (store.seenPlayersTable.dedup,
   (store.matchesTable.map (fun r => r.matchId)).dedup,
   (store.masteries.map (fun r => r.summonerName)).dedup)

/-- The shared state a fresh run starts from: the dedup sets are re-derived
from the durable store and the lock is free. -/
def bootShared (store : Store) : SystemState :=
  ⟨(load_seen_state store).1, (load_seen_state store).2.1,
   (load_seen_state store).2.2, store, none⟩

/-! ## The multi-worker system -/

/-- All workers plus the shared state. -/
structure MultiState where
  workers : List Worker
  shared : SystemState
deriving DecidableEq, Repr

/-- One scheduled iteration of worker `i` in the multi-worker system:
`none` when worker `i` does not exist, is dead, or is blocked on the lock.
Stepping worker `i` leaves every other worker's thread-local state
untouched, as thread-local state is in Python. -/
def sysStep (env : Env) (ms : MultiState) (i : Nat) :
    Option (MultiState × Option MatchId) :=
  match ms.workers[i]? with
  | none => none
  | some w =>
    if w.alive then
      match listen_and_commit_step env i w ms.shared with
      | none => none
      | some (w', sh', f) => some (⟨ms.workers.set i w', sh'⟩, f)
    else none

/-- Run a schedule of worker iterations, collecting every match id whose
detail was fetched; a blocked or dead worker's slot is skipped (the thread
is waiting on the lock or gone). -/
def runSchedule (env : Env) : MultiState → List Nat → MultiState × List MatchId
  | ms, [] => (ms, [])
  | ms, i :: rest =>
    match sysStep env ms i with
    | none => runSchedule env ms rest
    | some (ms', f) =>
      let r := runSchedule env ms' rest
      (r.1, f.toList ++ r.2)

/-! ## Derived descriptions of `process_match` -/

/-- The `Matches` row `process_match` builds from a payload. -/
def matchRowOf (d : MatchData) : MatchRow :=
  ⟨d.info.gameVersion, d.matchId, d.info.gameCreation, d.info.gameDuration,
   d.info.gameId, if d.info.teams0win then 100 else 200⟩

/-- Whether every schema field is present in a participant's JSON. -/
def rowOk (fields : List String) (p : ParticipantPayload) : Bool :=
  match rowValues fields p with
  | .ok _ => true
  | .error _ => false

/-- Whether every participant of the list has every schema field. -/
def cleanParticipants (fields : List String) (ps : List ParticipantPayload) : Bool :=
  ps.all (fun p => rowOk fields p)

/-- The participant rows `process_match` commits: one row per participant up
to (and excluding) the first participant with a missing field. -/
def okRows (fields : List String) (mid : MatchId) :
    List ParticipantPayload → List ParticipantRow
  | [] => []
  | p :: rest =>
    match rowValues fields p with
    | .error _ => []
    | .ok vals => ⟨vals, mid⟩ :: okRows fields mid rest

theorem okRows_length_of_clean (fields : List String) (mid : MatchId)
    (ps : List ParticipantPayload) (h : cleanParticipants fields ps = true) :
    (okRows fields mid ps).length = ps.length := by
  induction ps with
  | nil => simp [okRows]
  | cons p rest ih =>
    simp only [cleanParticipants, List.all_cons, Bool.and_eq_true] at h
    have hp := h.1
    simp only [rowOk] at hp
    simp only [okRows]
    cases hrv : rowValues fields p with
    | error e => rw [hrv] at hp; simp at hp
    | ok vals =>
      simp only [List.length_cons]
      rw [ih]
      simp only [cleanParticipants]
      exact h.2

theorem okRows_matchId (fields : List String) (mid : MatchId)
    (ps : List ParticipantPayload) :
    ∀ r ∈ okRows fields mid ps, r.matchId = mid := by
  induction ps with
  | nil => simp [okRows]
  | cons p rest ih =>
    intro r hr
    simp only [okRows] at hr
    cases hrv : rowValues fields p with
    | error e => rw [hrv] at hr; simp at hr
    | ok vals =>
      rw [hrv] at hr
      rcases List.mem_cons.mp hr with h | h
      · rw [h]
      · exact ih r h

theorem participantCommit_store (mid : MatchId)
    (mo : String → List MasteryRecord) (p : ParticipantPayload)
    (vals : List Int) (st : ProcState) :
    (participantCommit mid mo p vals st).store.matchesTable
        = st.store.matchesTable
      ∧ (participantCommit mid mo p vals st).store.participants
        = st.store.participants ++ [⟨vals, mid⟩]
      ∧ (participantCommit mid mo p vals st).store.seenPlayersTable
        = st.store.seenPlayersTable := by
  by_cases hm : p.summonerName ∈ st.seenMasteries <;>
    simp [participantCommit, hm]

theorem processParticipants_store (fields : List String) (mid : MatchId)
    (mo : String → List MasteryRecord) (ps : List ParticipantPayload)
    (st : ProcState) :
    (processParticipants fields mid mo ps st).1.store.matchesTable
        = st.store.matchesTable
      ∧ (processParticipants fields mid mo ps st).1.store.participants
        = st.store.participants ++ okRows fields mid ps
      ∧ (processParticipants fields mid mo ps st).1.store.seenPlayersTable
        = st.store.seenPlayersTable
      ∧ ((processParticipants fields mid mo ps st).2 = none
        ↔ cleanParticipants fields ps = true) := by
  induction ps generalizing st with
  | nil => simp [processParticipants, okRows, cleanParticipants]
  | cons p rest ih =>
    cases hrv : rowValues fields p with
    | error e =>
      simp [processParticipants, hrv, okRows, cleanParticipants, rowOk]
    | ok vals =>
      obtain ⟨hc1, hc2, hc3⟩ := participantCommit_store mid mo p vals st
      obtain ⟨h1, h2, h3, h4⟩ := ih (participantCommit mid mo p vals st)
      refine ⟨?_, ?_, ?_, ?_⟩
      · simp only [processParticipants, hrv]
        rw [h1, hc1]
      · simp only [processParticipants, hrv, okRows]
        rw [h2, hc2]
        simp
      · simp only [processParticipants, hrv]
        rw [h3, hc3]
      · simp only [processParticipants, hrv, cleanParticipants, List.all_cons]
        rw [h4]
        simp [cleanParticipants, rowOk, hrv]

theorem process_match_fresh (fields : List String) (d : MatchData)
    (mo : String → List MasteryRecord) (st : ProcState)
    (h : st.store.matchesTable.any (fun r => r.matchId == d.matchId) = false) :
    (process_match fields d mo st).1.store.matchesTable
        = st.store.matchesTable ++ [matchRowOf d]
      ∧ (process_match fields d mo st).1.store.participants
        = st.store.participants ++ okRows fields d.matchId d.info.participants
      ∧ (process_match fields d mo st).1.store.seenPlayersTable
        = st.store.seenPlayersTable
      ∧ ((process_match fields d mo st).2 = none
        ↔ cleanParticipants fields d.info.participants = true) := by
  simp only [process_match, insertMatches, h, matchRowOf]
  exact processParticipants_store fields d.matchId mo d.info.participants
    ⟨{ st.store with matchesTable := st.store.matchesTable ++ [matchRowOf d] },
     st.seenMasteries⟩

theorem process_match_dup (fields : List String) (d : MatchData)
    (mo : String → List MasteryRecord) (st : ProcState)
    (h : st.store.matchesTable.any (fun r => r.matchId == d.matchId) = true) :
    process_match fields d mo st = (st, some .integrityError) := by
  simp [process_match, insertMatches, h]

/-! ## Lemmas on the frontier operations -/

theorem mem_setAdd_iff (s : List String) (x a : String) :
    a ∈ setAdd s x ↔ a = x ∨ a ∈ s := by
  by_cases h : x ∈ s <;> simp [setAdd, h]
  exact fun ha => ha ▸ h

theorem subset_setAdd (s : List String) (x : String) : s ⊆ setAdd s x := by
  intro a ha
  rw [mem_setAdd_iff]
  exact Or.inr ha

theorem mem_enqueueNew (sm : List MatchId) (m : MatchId) :
    ∀ (hist q : List MatchId), m ∈ enqueueNew sm q hist → m ∈ q ∨ m ∉ sm := by
  intro hist
  induction hist with
  | nil => intro q h; exact Or.inl h
  | cons x t ih =>
    intro q h
    simp only [enqueueNew, List.foldl_cons] at h
    by_cases hx : x ∈ sm
    · rw [if_pos hx] at h
      exact ih q h
    · rw [if_neg hx] at h
      rcases ih (q ++ [x]) h with h1 | h1
      · rcases List.mem_append.mp h1 with h2 | h2
        · exact Or.inl h2
        · right
          simp only [List.mem_singleton] at h2
          exact h2 ▸ hx
      · exact Or.inr h1

theorem add_player_match_history_seenMatches (env : Env) (name : String)
    (q : List MatchId) (sp : List String) (sm : List MatchId) (st : Store) :
    (add_player_match_history env name q sp sm st).seenMatches = sm := by
  cases hacc : get_player_info_by_summoner_name env name with
  | exitWorker => simp [add_player_match_history, hacc]
  | notFound => simp [add_player_match_history, hacc]
  | httpError s => simp [add_player_match_history, hacc]
  | ok puuid =>
    cases hhist : get_matches_by_puuid env puuid with
    | exitWorker => simp [add_player_match_history, hacc, hhist]
    | httpError s => simp [add_player_match_history, hacc, hhist]
    | ok hist => simp [add_player_match_history, hacc, hhist]

theorem add_player_match_history_store (env : Env) (name : String)
    (q : List MatchId) (sp : List String) (sm : List MatchId) (st : Store) :
    (add_player_match_history env name q sp sm st).store.matchesTable
        = st.matchesTable
      ∧ (add_player_match_history env name q sp sm st).store.participants
        = st.participants
      ∧ (add_player_match_history env name q sp sm st).store.masteries
        = st.masteries := by
  cases hacc : get_player_info_by_summoner_name env name with
  | exitWorker => simp [add_player_match_history, hacc]
  | notFound => simp [add_player_match_history, hacc]
  | httpError s => simp [add_player_match_history, hacc]
  | ok puuid =>
    cases hhist : get_matches_by_puuid env puuid with
    | exitWorker => simp [add_player_match_history, hacc, hhist]
    | httpError s => simp [add_player_match_history, hacc, hhist]
    | ok hist => simp [add_player_match_history, hacc, hhist]

theorem add_player_match_history_queue (env : Env) (name : String)
    (q : List MatchId) (sp : List String) (sm : List MatchId) (st : Store)
    (m : MatchId) (h : m ∈ (add_player_match_history env name q sp sm st).queue) :
    m ∈ q ∨ m ∉ sm := by
  cases hacc : get_player_info_by_summoner_name env name with
  | exitWorker =>
    simp only [add_player_match_history, hacc] at h
    exact Or.inl h
  | notFound =>
    simp only [add_player_match_history, hacc] at h
    exact Or.inl h
  | httpError s =>
    simp only [add_player_match_history, hacc] at h
    exact Or.inl h
  | ok puuid =>
    cases hhist : get_matches_by_puuid env puuid with
    | exitWorker =>
      simp only [add_player_match_history, hacc, hhist] at h
      exact Or.inl h
    | httpError s =>
      simp only [add_player_match_history, hacc, hhist] at h
      exact Or.inl h
    | ok hist =>
      simp only [add_player_match_history, hacc, hhist] at h
      exact mem_enqueueNew sm m _ q h

theorem refillLoop_store (env : Env) (sm : List MatchId) :
    ∀ (ps : List ParticipantPayload) (q : List MatchId) (sp : List String)
      (st : Store),
    (refillLoop env sm ps q sp st).store.matchesTable = st.matchesTable
      ∧ (refillLoop env sm ps q sp st).store.participants = st.participants
      ∧ (refillLoop env sm ps q sp st).store.masteries = st.masteries := by
  intro ps
  induction ps with
  | nil => intro q sp st; exact ⟨rfl, rfl, rfl⟩
  | cons p rest ih =>
    intro q sp st
    simp only [refillLoop]
    by_cases hp : p.summonerName ∈ sp
    · rw [if_pos hp]
      exact ih q sp st
    · rw [if_neg hp]
      obtain ⟨g1, g2, g3⟩ := add_player_match_history_store env p.summonerName q sp sm st
      by_cases hd : (add_player_match_history env p.summonerName q sp sm st).died = true
      · rw [if_pos hd]
        exact ⟨g1, g2, g3⟩
      · rw [if_neg hd]
        obtain ⟨h1, h2, h3⟩ := ih
          (add_player_match_history env p.summonerName q sp sm st).queue
          (add_player_match_history env p.summonerName q sp sm st).seenPlayers
          (add_player_match_history env p.summonerName q sp sm st).store
        exact ⟨h1.trans g1, h2.trans g2, h3.trans g3⟩

theorem refillLoop_queue (env : Env) (sm : List MatchId) :
    ∀ (ps : List ParticipantPayload) (q : List MatchId) (sp : List String)
      (st : Store) (q2 : List MatchId) (sp2 : List String) (st2 : Store)
      (m : MatchId),
    refillLoop env sm ps q sp st = .ok q2 sp2 st2 → m ∈ q2 →
    m ∈ q ∨ m ∉ sm := by
  intro ps
  induction ps with
  | nil =>
    intro q sp st q2 sp2 st2 m h hm
    simp only [refillLoop, RefillResult.ok.injEq] at h
    exact Or.inl (h.1 ▸ hm)
  | cons p rest ih =>
    intro q sp st q2 sp2 st2 m h hm
    simp only [refillLoop] at h
    by_cases hp : p.summonerName ∈ sp
    · rw [if_pos hp] at h
      exact ih q sp st q2 sp2 st2 m h hm
    · rw [if_neg hp] at h
      by_cases hd : (add_player_match_history env p.summonerName q sp sm st).died = true
      · rw [if_pos hd] at h
        exact absurd h (by simp)
      · rw [if_neg hd] at h
        rcases ih _ _ _ q2 sp2 st2 m h hm with h1 | h1
        · exact add_player_match_history_queue env p.summonerName q sp sm st m h1
        · exact Or.inr h1

/-! ## Lemmas on the `finally` block and the worker step -/

theorem finallyRefill_nonempty (env : Env) (i : Nat) (w : Worker)
    (sh : SystemState) (fatal : Bool) (h : w.queue ≠ []) :
    finallyRefill env i w sh fatal = ({ w with alive := !fatal }, sh) := by
  unfold finallyRefill
  rw [if_pos]
  simpa using h

theorem finallyRefill_shared (env : Env) (i : Nat) (w : Worker)
    (sh : SystemState) (fatal : Bool) :
    (finallyRefill env i w sh fatal).2.seenMatches = sh.seenMatches
      ∧ (finallyRefill env i w sh fatal).2.seenMasteries = sh.seenMasteries
      ∧ (finallyRefill env i w sh fatal).2.store.matchesTable
        = sh.store.matchesTable
      ∧ (finallyRefill env i w sh fatal).2.store.participants
        = sh.store.participants
      ∧ (finallyRefill env i w sh fatal).2.store.masteries
        = sh.store.masteries := by
  by_cases hq : w.queue = []
  · cases hlv : w.lastValidMatch with
    | none => simp [finallyRefill, hq, hlv]
    | some d =>
      obtain ⟨h1, h2, h3⟩ := refillLoop_store env sh.seenMatches
        d.info.participants [] sh.seenPlayers sh.store
      cases hr : refillLoop env sh.seenMatches d.info.participants []
          sh.seenPlayers sh.store with
      | ok q2 sp2 st2 =>
        rw [hr] at h1 h2 h3
        simp only [RefillResult.store] at h1 h2 h3
        simp only [finallyRefill, hq, hlv, hr, List.length_nil, ne_eq,
          not_true_eq_false, if_false]
        exact ⟨trivial, trivial, h1, h2, h3⟩
      | died sp2 st2 =>
        rw [hr] at h1 h2 h3
        simp only [RefillResult.store] at h1 h2 h3
        simp only [finallyRefill, hq, hlv, hr, List.length_nil, ne_eq,
          not_true_eq_false, if_false]
        exact ⟨trivial, trivial, h1, h2, h3⟩
  · rw [finallyRefill_nonempty env i w sh fatal hq]
    exact ⟨rfl, rfl, rfl, rfl, rfl⟩

theorem step_eq_empty (env : Env) (i : Nat) (w : Worker) (sh : SystemState)
    (hlock : sh.lockHeldBy = none) (hq : w.queue = []) :
    listen_and_commit_step env i w sh =
      some ((finallyRefill env i w sh false).1,
        (finallyRefill env i w sh false).2, none) := by
  simp only [listen_and_commit_step, hlock, Option.isSome_none, Bool.false_eq_true,
    if_false, hq]

theorem step_eq_seen_skip (env : Env) (i : Nat) (w : Worker) (sh : SystemState)
    (m : MatchId) (rest : List MatchId)
    (hlock : sh.lockHeldBy = none) (hq : w.queue = m :: rest)
    (hm : m ∈ sh.seenMatches) :
    listen_and_commit_step env i w sh =
      some ((finallyRefill env i { w with queue := rest } sh false).1,
        (finallyRefill env i { w with queue := rest } sh false).2, none) := by
  simp only [listen_and_commit_step, hlock, Option.isSome_none, Bool.false_eq_true,
    if_false, hq, if_pos hm]

theorem step_eq_exit (env : Env) (i : Nat) (w : Worker) (sh : SystemState)
    (m : MatchId) (rest : List MatchId)
    (hlock : sh.lockHeldBy = none) (hq : w.queue = m :: rest)
    (hm : m ∉ sh.seenMatches)
    (hf : get_match_by_match_id env m = .exitWorker) :
    listen_and_commit_step env i w sh =
      some ((finallyRefill env i { w with queue := rest }
          { sh with seenMatches := setAdd sh.seenMatches m } true).1,
        (finallyRefill env i { w with queue := rest }
          { sh with seenMatches := setAdd sh.seenMatches m } true).2, some m) := by
  simp only [listen_and_commit_step, hlock, Option.isSome_none, Bool.false_eq_true,
    if_false, hq, if_neg hm, hf]

theorem step_eq_http (env : Env) (i : Nat) (w : Worker) (sh : SystemState)
    (m : MatchId) (rest : List MatchId) (s : Nat)
    (hlock : sh.lockHeldBy = none) (hq : w.queue = m :: rest)
    (hm : m ∉ sh.seenMatches)
    (hf : get_match_by_match_id env m = .httpError s) :
    listen_and_commit_step env i w sh =
      some ((finallyRefill env i { w with queue := rest }
          { sh with seenMatches := setAdd sh.seenMatches m } false).1,
        (finallyRefill env i { w with queue := rest }
          { sh with seenMatches := setAdd sh.seenMatches m } false).2, some m) := by
  simp only [listen_and_commit_step, hlock, Option.isSome_none, Bool.false_eq_true,
    if_false, hq, if_neg hm, hf]

theorem step_eq_reject (env : Env) (i : Nat) (w : Worker) (sh : SystemState)
    (m : MatchId) (rest : List MatchId) (d : MatchData)
    (hlock : sh.lockHeldBy = none) (hq : w.queue = m :: rest)
    (hm : m ∉ sh.seenMatches)
    (hf : get_match_by_match_id env m = .payload d)
    (hflt : matchFilter d.info = false) :
    listen_and_commit_step env i w sh =
      some ((finallyRefill env i { w with queue := rest }
          { sh with seenMatches := setAdd sh.seenMatches m } false).1,
        (finallyRefill env i { w with queue := rest }
          { sh with seenMatches := setAdd sh.seenMatches m } false).2, some m) := by
  simp only [listen_and_commit_step, hlock, Option.isSome_none, Bool.false_eq_true,
    if_false, hq, if_neg hm, hf, hflt, Bool.false_eq_true]

theorem step_eq_accept (env : Env) (i : Nat) (w : Worker) (sh : SystemState)
    (m : MatchId) (rest : List MatchId) (d : MatchData)
    (hlock : sh.lockHeldBy = none) (hq : w.queue = m :: rest)
    (hm : m ∉ sh.seenMatches)
    (hf : get_match_by_match_id env m = .payload d)
    (hflt : matchFilter d.info = true) :
    listen_and_commit_step env i w sh =
      some ((finallyRefill env i { w with queue := rest, lastValidMatch := some d } { sh with seenMatches := setAdd sh.seenMatches m, store := (process_match (participantFields env.schemaColumns) d env.masteryOf ⟨sh.store, sh.seenMasteries⟩).1.store, seenMasteries := (process_match (participantFields env.schemaColumns) d env.masteryOf ⟨sh.store, sh.seenMasteries⟩).1.seenMasteries } false).1,
        (finallyRefill env i { w with queue := rest, lastValidMatch := some d } { sh with seenMatches := setAdd sh.seenMatches m, store := (process_match (participantFields env.schemaColumns) d env.masteryOf ⟨sh.store, sh.seenMasteries⟩).1.store, seenMasteries := (process_match (participantFields env.schemaColumns) d env.masteryOf ⟨sh.store, sh.seenMasteries⟩).1.seenMasteries } false).2,
        some m) := by
  simp only [listen_and_commit_step, hlock, Option.isSome_none, Bool.false_eq_true,
    if_false, hq, if_neg hm, hf, hflt, if_true]

theorem step_lock_none (env : Env) (i : Nat) (w : Worker) (sh : SystemState)
    (r : Worker × SystemState × Option MatchId)
    (h : listen_and_commit_step env i w sh = some r) : sh.lockHeldBy = none := by
  cases hl : sh.lockHeldBy with
  | none => rfl
  | some j => simp [listen_and_commit_step, hl] at h

theorem step_seenMatches_mono (env : Env) (i : Nat) (w : Worker)
    (sh : SystemState) (r : Worker × SystemState × Option MatchId)
    (h : listen_and_commit_step env i w sh = some r) :
    sh.seenMatches ⊆ r.2.1.seenMatches := by
  have hlock := step_lock_none env i w sh r h
  rcases hq : w.queue with _ | ⟨m, rest⟩
  · rw [step_eq_empty env i w sh hlock hq] at h
    simp only [Option.some.injEq] at h
    subst h
    rw [(finallyRefill_shared env i w sh false).1]
    exact List.Subset.refl _
  · by_cases hm : m ∈ sh.seenMatches
    · rw [step_eq_seen_skip env i w sh m rest hlock hq hm] at h
      simp only [Option.some.injEq] at h
      subst h
      rw [(finallyRefill_shared env i _ sh false).1]
      exact List.Subset.refl _
    · cases hf : get_match_by_match_id env m with
      | exitWorker =>
        rw [step_eq_exit env i w sh m rest hlock hq hm hf] at h
        simp only [Option.some.injEq] at h
        subst h
        rw [(finallyRefill_shared env i _ _ true).1]
        exact subset_setAdd sh.seenMatches m
      | httpError s =>
        rw [step_eq_http env i w sh m rest s hlock hq hm hf] at h
        simp only [Option.some.injEq] at h
        subst h
        rw [(finallyRefill_shared env i _ _ false).1]
        exact subset_setAdd sh.seenMatches m
      | payload d =>
        cases hflt : matchFilter d.info with
        | false =>
          rw [step_eq_reject env i w sh m rest d hlock hq hm hf hflt] at h
          simp only [Option.some.injEq] at h
          subst h
          rw [(finallyRefill_shared env i _ _ false).1]
          exact subset_setAdd sh.seenMatches m
        | true =>
          rw [step_eq_accept env i w sh m rest d hlock hq hm hf hflt] at h
          simp only [Option.some.injEq] at h
          subst h
          rw [(finallyRefill_shared env i _ _ false).1]
          exact subset_setAdd sh.seenMatches m

theorem step_fetched_unseen (env : Env) (i : Nat) (w : Worker)
    (sh : SystemState) (r : Worker × SystemState × Option MatchId)
    (m : MatchId) (h : listen_and_commit_step env i w sh = some r)
    (hfet : r.2.2 = some m) : m ∉ sh.seenMatches := by
  have hlock := step_lock_none env i w sh r h
  rcases hq : w.queue with _ | ⟨m', rest⟩
  · rw [step_eq_empty env i w sh hlock hq] at h
    simp only [Option.some.injEq] at h
    subst h
    simp at hfet
  · by_cases hm : m' ∈ sh.seenMatches
    · rw [step_eq_seen_skip env i w sh m' rest hlock hq hm] at h
      simp only [Option.some.injEq] at h
      subst h
      simp at hfet
    · cases hf : get_match_by_match_id env m' with
      | exitWorker =>
        rw [step_eq_exit env i w sh m' rest hlock hq hm hf] at h
        simp only [Option.some.injEq] at h
        subst h
        simp only [Option.some.injEq] at hfet
        exact hfet ▸ hm
      | httpError s =>
        rw [step_eq_http env i w sh m' rest s hlock hq hm hf] at h
        simp only [Option.some.injEq] at h
        subst h
        simp only [Option.some.injEq] at hfet
        exact hfet ▸ hm
      | payload d =>
        cases hflt : matchFilter d.info with
        | false =>
          rw [step_eq_reject env i w sh m' rest d hlock hq hm hf hflt] at h
          simp only [Option.some.injEq] at h
          subst h
          simp only [Option.some.injEq] at hfet
          exact hfet ▸ hm
        | true =>
          rw [step_eq_accept env i w sh m' rest d hlock hq hm hf hflt] at h
          simp only [Option.some.injEq] at h
          subst h
          simp only [Option.some.injEq] at hfet
          exact hfet ▸ hm

theorem sysStep_shared (env : Env) (ms : MultiState) (i : Nat)
    (ms' : MultiState) (f : Option MatchId)
    (h : sysStep env ms i = some (ms', f)) :
    ms.shared.seenMatches ⊆ ms'.shared.seenMatches
      ∧ (∀ m, f = some m → m ∉ ms.shared.seenMatches) := by
  unfold sysStep at h
  cases hw : ms.workers[i]? with
  | none => rw [hw] at h; exact absurd h (by simp)
  | some w =>
    rw [hw] at h
    cases halive : w.alive with
    | false => simp [halive] at h
    | true =>
      simp only [halive, if_true] at h
      cases hstep : listen_and_commit_step env i w ms.shared with
      | none => rw [hstep] at h; simp at h
      | some r =>
        rw [hstep] at h
        simp only [Option.some.injEq, Prod.mk.injEq] at h
        obtain ⟨hms, hfile⟩ := h
        constructor
        · rw [← hms]
          exact step_seenMatches_mono env i w ms.shared r hstep
        · intro m hm
          exact step_fetched_unseen env i w ms.shared r m hstep (hfile ▸ hm)

theorem runSchedule_no_refetch (env : Env) (M : MatchId) :
    ∀ (sched : List Nat) (ms : MultiState), M ∈ ms.shared.seenMatches →
      M ∉ (runSchedule env ms sched).2 := by
  intro sched
  induction sched with
  | nil => intro ms hM; simp [runSchedule]
  | cons i rest ih =>
    intro ms hM
    simp only [runSchedule]
    cases hstep : sysStep env ms i with
    | none => exact ih ms hM
    | some r =>
      obtain ⟨hmono, hfresh⟩ := sysStep_shared env ms i r.1 r.2 (by rw [hstep])
      simp only [List.mem_append, not_or]
      constructor
      · cases hf : r.2 with
        | none => simp
        | some m =>
          simp only [hf, Option.toList_some, List.mem_singleton]
          intro hEq
          exact hfresh m hf (hEq ▸ hM)
      · exact ih r.1 (hmono hM)

theorem isTransientStatus_ne_403 (s : Nat) (h : isTransientStatus s = true) :
    (s == 403) = false := by
  simp only [isTransientStatus, Bool.or_eq_true, beq_iff_eq] at h
  simp only [beq_eq_false_iff_ne, ne_eq]
  omega

/-- Two transient responses followed by a success: the retry loop issues
exactly three requests and returns the third response. -/
theorem retry_two_transients_then_ok (server : Nat → Nat)
    (h0 : isTransientStatus (server 0) = true)
    (h1 : isTransientStatus (server 1) = true)
    (h2 : isTransientStatus (server 2) = false) :
    get_with_retry server = .response (server 2) 3 := by
  unfold get_with_retry
  rw [isTransientStatus_ne_403 (server 0) h0]
  have : retryLoop server 0 REQUEST_RETRY_COUNT = 2 := by
    show retryLoop server 0 5 = 2
    rw [retryLoop, if_pos h0, retryLoop, if_pos h1, retryLoop, if_neg (by rw [h2]; simp)]
  simp [this]

/-- One transient response followed by any non-transient one: the retry loop
issues exactly two requests and returns the second response, whatever its
status (a 403 on a retry is returned, not treated as fatal). -/
theorem retry_one_transient_then_stop (server : Nat → Nat)
    (h0 : isTransientStatus (server 0) = true)
    (h1 : isTransientStatus (server 1) = false) :
    get_with_retry server = .response (server 1) 2 := by
  unfold get_with_retry
  rw [isTransientStatus_ne_403 (server 0) h0]
  have : retryLoop server 0 REQUEST_RETRY_COUNT = 1 := by
    show retryLoop server 0 5 = 1
    rw [retryLoop, if_pos h0, retryLoop, if_neg (by rw [h1]; simp)]
  simp [this]

theorem filter_matchId_append_singleton (xs : List MatchRow) (m : MatchId)
    (row : MatchRow) (hfresh : xs.any (fun r => r.matchId == m) = false)
    (hrow : row.matchId = m) :
    ((xs ++ [row]).filter (fun r => r.matchId == m)).length = 1 := by
  rw [List.filter_append]
  have hnil : xs.filter (fun r => r.matchId == m) = [] := by
    rw [List.filter_eq_nil_iff]
    intro a ha
    simp only [List.any_eq_false] at hfresh
    exact hfresh a ha
  rw [hnil]
  simp [hrow]

theorem any_matchId_false_not_mem (xs : List MatchRow) (m : MatchId)
    (hfresh : xs.any (fun r => r.matchId == m) = false) :
    m ∉ xs.map (fun r => r.matchId) := by
  simp only [List.any_eq_false] at hfresh
  intro hmem
  obtain ⟨r, hr, hrm⟩ := List.mem_map.mp hmem
  exact hfresh r hr (by simp [hrm])

theorem step_isSome_of_lock_free (env : Env) (i : Nat) (w : Worker)
    (sh : SystemState) (hlock : sh.lockHeldBy = none) :
    (listen_and_commit_step env i w sh).isSome = true := by
  simp [listen_and_commit_step, hlock]

/-! ## Concrete fixtures -/

/-- A well-formed participant whose JSON has every `sampleSchema` stat
field. -/
def sampleParticipant (n : String) : ParticipantPayload :=
  ⟨n, "SID" ++ n, [("championId", 1), ("teamId", 100)]⟩

/-- A match `info` object with the given mode, type and participants. -/
def sampleInfo (mode ty : String) (ps : List ParticipantPayload) : MatchInfo :=
  ⟨"12.19", 0, 1800, 77, mode, ty, true, ps⟩

def tenNames : List String :=
  ["p0", "p1", "p2", "p3", "p4", "p5", "p6", "p7", "p8", "p9"]

def tenParticipants : List ParticipantPayload := tenNames.map sampleParticipant

/-- A miniature `Participants` schema: stat columns plus the `matchId`
column that `process_match` filters out. -/
def sampleSchema : List String := ["teamId", "matchId", "championId"]

/-- A CLASSIC / MATCHED_GAME payload with ten human participants. -/
def payloadM1 : MatchData := ⟨"M1", sampleInfo "CLASSIC" "MATCHED_GAME" tenParticipants⟩

/-- An ARAM payload (fails the acceptance filter). -/
def payloadM2 : MatchData := ⟨"M2", sampleInfo "ARAM" "MATCHED_GAME" tenParticipants⟩

/-- The environment of the spec's "Ada" scenario: every account resolves,
every history is `[M1, M2]`, every request succeeds immediately. -/
def baseEnv : Env :=
  { accountServer := fun _ _ => 200
    accountNotFound := fun _ => false
    accountOf := fun n => "PU" ++ n
    historyServer := fun _ _ => 200
    historyOf := fun _ => ["M1", "M2"]
    matchServer := fun _ _ => 200
    matchPayload := fun m => if m == "M1" then payloadM1 else payloadM2
    masteryOf := fun _ => [⟨5, 7, 1000⟩]
    schemaColumns := sampleSchema }

def emptyStore : Store := ⟨[], [], [], []⟩

def freshShared : SystemState := bootShared emptyStore

/-- Placeholder result used with `Option.getD` when extracting the result of
a step known to be `some`. -/
def noRun : Worker × SystemState × Option MatchId :=
  (⟨"", [], none, false⟩, freshShared, none)

/-! ## Claim C1 -/

/-- C1, counterexample: `add_player_match_history` (the enqueue path) filters
against `seen_matches` but does not mark the enqueued ids seen: after
enqueuing, `M1` is pending yet still absent from `seenMatches`, so a second
enqueue (for another player whose history contains `M1`) appends it a second
time.  This refutes "it is marked seen atomically with the enqueue". -/
theorem C1_enqueue_marks_seen_counterexample :
    "M1" ∈ (add_player_match_history baseEnv "Ada" [] [] [] emptyStore).queue
    ∧ "M1" ∉ (add_player_match_history baseEnv "Ada" [] [] [] emptyStore).seenMatches
    ∧ (add_player_match_history baseEnv "Bea"
        (add_player_match_history baseEnv "Ada" [] [] [] emptyStore).queue
        (add_player_match_history baseEnv "Ada" [] [] [] emptyStore).seenPlayers
        (add_player_match_history baseEnv "Ada" [] [] [] emptyStore).seenMatches
        (add_player_match_history baseEnv "Ada" [] [] [] emptyStore).store).queue.count "M1" = 2 := by
  decide

/-- C1 (amended): enqueue adds to `pending` only ids not already in
`seenMatches`, but does **not** mark them seen — `seenMatches` is untouched
by the enqueue; ids are marked seen at dequeue time under the lock, where an
id already in `seenMatches` is skipped without fetching or persisting; and
`seenMatches` only grows across worker iterations. -/
theorem C1_enqueue_dedup_amended :
    (∀ (env : Env) (name : String) (q : List MatchId) (sp : List String)
       (sm : List MatchId) (st : Store),
       (add_player_match_history env name q sp sm st).seenMatches = sm)
    ∧ (∀ (env : Env) (name : String) (q : List MatchId) (sp : List String)
       (sm : List MatchId) (st : Store) (m : MatchId), m ∈ sm →
       m ∈ (add_player_match_history env name q sp sm st).queue → m ∈ q)
    ∧ (∀ (env : Env) (i : Nat) (w : Worker) (sh : SystemState)
       (r : Worker × SystemState × Option MatchId),
       listen_and_commit_step env i w sh = some r →
       sh.seenMatches ⊆ r.2.1.seenMatches)
    ∧ (∀ (env : Env) (i : Nat) (w : Worker) (sh : SystemState) (m : MatchId)
       (rest : List MatchId) (r : Worker × SystemState × Option MatchId),
       w.queue = m :: rest → m ∈ sh.seenMatches →
       listen_and_commit_step env i w sh = some r →
       r.2.2 = none ∧ r.2.1.store.matchesTable = sh.store.matchesTable) := by
  refine ⟨add_player_match_history_seenMatches, ?_, step_seenMatches_mono, ?_⟩
  · intro env name q sp sm st m hm hq
    rcases add_player_match_history_queue env name q sp sm st m hq with h | h
    · exact h
    · exact absurd hm h
  · intro env i w sh m rest r hq hm hstep
    have hlock := step_lock_none env i w sh r hstep
    rw [step_eq_seen_skip env i w sh m rest hlock hq hm] at hstep
    simp only [Option.some.injEq] at hstep
    subst hstep
    refine ⟨rfl, ?_⟩
    exact (finallyRefill_shared env i { w with queue := rest } sh false).2.2.1

def wSeen : Worker := ⟨"Ada", ["M9", "MZ"], none, true⟩

def shSeen : SystemState := { freshShared with seenMatches := ["M9"] }

def seenSkipRun : Worker × SystemState × Option MatchId :=
  (listen_and_commit_step baseEnv 0 wSeen shSeen).getD noRun

/-- Witness for C1 (amended), at concrete inputs. -/
theorem C1_enqueue_dedup_amended_witness :
    (add_player_match_history baseEnv "Ada" [] [] ["M9"] emptyStore).seenMatches = ["M9"]
    ∧ "M1" ∈ ["M1"]
    ∧ shSeen.seenMatches ⊆ seenSkipRun.2.1.seenMatches
    ∧ (seenSkipRun.2.2 = none
        ∧ seenSkipRun.2.1.store.matchesTable = shSeen.store.matchesTable) :=
  ⟨C1_enqueue_dedup_amended.1 baseEnv "Ada" [] [] ["M9"] emptyStore,
   C1_enqueue_dedup_amended.2.1 baseEnv "Ada" ["M1"] [] ["M1"] emptyStore "M1"
     (by decide) (by decide),
   C1_enqueue_dedup_amended.2.2.1 baseEnv 0 wSeen shSeen seenSkipRun (by decide),
   C1_enqueue_dedup_amended.2.2.2 baseEnv 0 wSeen shSeen "M9" ["MZ"] seenSkipRun
     rfl (by decide) (by decide)⟩

/-! ## Claim C2 -/

/-- Environment of a dead credential: every request — match detail, account
lookup, match history — answers 403. -/
def env403 : Env :=
  { baseEnv with matchServer := fun _ _ => 403, accountServer := fun _ _ => 403, historyServer := fun _ _ => 403 }

/-- Two live workers; worker 0 has one queued match and no accepted match
yet, worker 1 has its own queued work. -/
def msC2 : MultiState :=
  ⟨[⟨"Ada", ["MX"], none, true⟩, ⟨"Bea", ["MY"], none, true⟩], freshShared⟩

/-- The system after worker 0's iteration hits the Forbidden response. -/
def msC2after : MultiState := ((sysStep env403 msC2 0).getD (msC2, none)).1

/-- C2, counterexample: worker 0 pops its only queued id, receives 403 on the
first response (`exit(1)` → `SystemExit`), and — because its queue is now
empty and it has no `last_valid_match` — its `finally` block raises
`TypeError` after `lock.acquire()`: worker 0 dies holding the frontier lock.
Worker 1 is still alive with queued work, but no further iteration of any
worker is possible (`sysStep` is `none` for both slots, and the state can
never change again), so worker 1 does not "continue draining and processing
its own work unaffected". -/
theorem C2_forbidden_isolation_counterexample :
    (sysStep env403 msC2 0).isSome = true
    ∧ msC2after.workers.map (fun w => w.alive) = [false, true]
    ∧ msC2after.workers.map (fun w => w.queue) = [[], ["MY"]]
    ∧ msC2after.shared.lockHeldBy = some 0
    ∧ sysStep env403 msC2after 1 = none
    ∧ sysStep env403 msC2after 0 = none := by
  decide

/-- Two live workers; worker 0 has one queued match and **has** a previously
accepted match to refill from. -/
def msC2acc : MultiState :=
  ⟨[⟨"Ada", ["MX"], some payloadM1, true⟩, ⟨"Bea", ["MY"], none, true⟩],
   freshShared⟩

/-- The system after worker 0's iteration hits the Forbidden response while
holding an accepted match. -/
def msC2accAfter : MultiState := ((sysStep env403 msC2acc 0).getD (msC2acc, none)).1

/-- C2 (amended): a Forbidden (403) first response on a match-detail fetch
terminates only the worker that received it (`exit(1)` raises `SystemExit`,
which in a worker thread kills just that thread) and the process does not
exit.  If the pop left the worker's queue nonempty, its `finally` block is a
no-op: the lock stays free, every other worker's state is untouched, and
every other live worker can keep iterating (first conjunct).  If the pop
emptied the queue, the `finally` refill runs under the lock with the same
dead credential: whether `last_valid_match` is `None` (`TypeError`, the
counterexample) or the refill's own account fetch hits the 403 → `exit(1)`
path, the worker dies holding the frontier lock and every other worker
blocks (second conjunct, at a concrete input with an accepted match). -/
theorem C2_forbidden_isolation_amended :
    (∀ (env : Env) (ms : MultiState) (i : Nat) (w : Worker) (m : MatchId)
      (rest : List MatchId) (ms' : MultiState) (f : Option MatchId),
    ms.workers[i]? = some w → w.queue = m :: rest →
    m ∉ ms.shared.seenMatches → env.matchServer m 0 = 403 →
    rest ≠ [] →
    sysStep env ms i = some (ms', f) →
    (ms'.workers[i]?.map (fun w2 => w2.alive) = some false)
    ∧ (∀ j, j ≠ i → ms'.workers[j]? = ms.workers[j]?)
    ∧ ms'.shared.lockHeldBy = none
    ∧ (∀ j w2, j ≠ i → ms.workers[j]? = some w2 → w2.alive = true →
        (sysStep env ms' j).isSome = true))
    ∧ ((sysStep env403 msC2acc 0).isSome = true
      ∧ msC2accAfter.workers.map (fun w2 => w2.alive) = [false, true]
      ∧ msC2accAfter.shared.lockHeldBy = some 0
      ∧ sysStep env403 msC2accAfter 1 = none) := by
  constructor
  · intro env ms i w m rest ms' f hw hq hm h403 hrest hsys
    unfold sysStep at hsys
    rw [hw] at hsys
    cases halive : w.alive with
    | false => simp [halive] at hsys
    | true =>
      simp only [halive, if_true] at hsys
      cases hstep : listen_and_commit_step env i w ms.shared with
      | none => rw [hstep] at hsys; simp at hsys
      | some r =>
        rw [hstep] at hsys
        have hlock := step_lock_none env i w ms.shared r hstep
        have hfetch : get_match_by_match_id env m = .exitWorker := by
          unfold get_match_by_match_id get_with_retry
          rw [h403]
          simp
        rw [step_eq_exit env i w ms.shared m rest hlock hq hm hfetch] at hstep
        rw [finallyRefill_nonempty env i _ _ true (by simpa using hrest)] at hstep
        simp only [Option.some.injEq] at hstep
        subst hstep
        simp only [Option.some.injEq, Prod.mk.injEq] at hsys
        obtain ⟨hms, hf⟩ := hsys
        subst hms
        subst hf
        have hi : i < ms.workers.length := by
          by_contra hge
          rw [List.getElem?_eq_none (by omega)] at hw
          exact Option.noConfusion hw
        have hlockNone : ({ ms.shared with
            seenMatches := setAdd ms.shared.seenMatches m } :
            SystemState).lockHeldBy = none := hlock
        refine ⟨?_, ?_, hlockNone, ?_⟩
        · show (ms.workers.set i _)[i]?.map _ = some false
          rw [List.getElem?_set_self hi]
          simp
        · intro j hj
          show (ms.workers.set i _)[j]? = _
          exact List.getElem?_set_ne (fun h => hj h.symm)
        · intro j w2 hj hwj halivej
          unfold sysStep
          simp only [Bool.not_true]
          have hwj' : (ms.workers.set i
              { w with queue := rest, alive := false })[j]? = some w2 := by
            rw [List.getElem?_set_ne (fun h => hj h.symm)]
            exact hwj
          have hs : (listen_and_commit_step env j w2
              { seenPlayers := ms.shared.seenPlayers,
                seenMatches := setAdd ms.shared.seenMatches m,
                seenMasteries := ms.shared.seenMasteries,
                store := ms.shared.store,
                lockHeldBy := ms.shared.lockHeldBy }).isSome = true :=
            step_isSome_of_lock_free env j w2 _ hlock
          cases h2 : listen_and_commit_step env j w2
              { seenPlayers := ms.shared.seenPlayers,
                seenMatches := setAdd ms.shared.seenMatches m,
                seenMasteries := ms.shared.seenMasteries,
                store := ms.shared.store,
                lockHeldBy := ms.shared.lockHeldBy } with
          | none => rw [h2] at hs; simp at hs
          | some r2 =>
            obtain ⟨w3, sh3, f3⟩ := r2
            simp only [hwj', halivej, if_true, h2]
            rfl
  · decide

def msC2safe : MultiState :=
  ⟨[⟨"Ada", ["MX", "MZ"], none, true⟩, ⟨"Bea", ["MY"], none, true⟩], freshShared⟩

def msC2safeAfter : MultiState × Option MatchId :=
  (sysStep env403 msC2safe 0).getD (msC2safe, none)

/-- Witness for C2 (amended), at concrete inputs. -/
theorem C2_forbidden_isolation_amended_witness :
    (msC2safeAfter.1.workers[0]?.map (fun w2 => w2.alive) = some false)
    ∧ (∀ j, j ≠ 0 → msC2safeAfter.1.workers[j]? = msC2safe.workers[j]?)
    ∧ msC2safeAfter.1.shared.lockHeldBy = none
    ∧ (∀ j w2, j ≠ 0 → msC2safe.workers[j]? = some w2 → w2.alive = true →
        (sysStep env403 msC2safeAfter.1 j).isSome = true) :=
  C2_forbidden_isolation_amended.1 env403 msC2safe 0
    ⟨"Ada", ["MX", "MZ"], none, true⟩
    "MX" ["MZ"] msC2safeAfter.1 msC2safeAfter.2 (by decide) rfl (by decide) rfl
    (by decide) (by decide)

/-! ## Claim C3 -/

/-- A participant whose JSON is missing the `teamId` stat field. -/
def badParticipant : ParticipantPayload := ⟨"pbad", "SIDpbad", [("championId", 3)]⟩

/-- A CLASSIC / MATCHED_GAME payload with ten participants whose third
participant is missing a schema field. -/
def payloadIncomplete : MatchData :=
  ⟨"MB", sampleInfo "CLASSIC" "MATCHED_GAME"
    (tenParticipants.take 2 ++ [badParticipant] ++ tenParticipants.drop 3)⟩

/-- The store state after `process_match` fails on `payloadIncomplete`. -/
def procIncomplete : ProcState × Option PyError :=
  process_match (participantFields sampleSchema) payloadIncomplete
    (fun _ => []) ⟨emptyStore, []⟩

/-- C3, counterexample: `process_match` commits the `Matches` row and each
participant row individually (`conn.commit()` after every insert), so a
`KeyError` on the third participant leaves the match row and two
participant rows committed and readable: the match is neither fully absent
nor fully present with all 10 ParticipantRecords. -/
theorem C3_atomicity_counterexample :
    procIncomplete.1.store.matchesTable.map (fun row => row.matchId) = ["MB"]
    ∧ (procIncomplete.1.store.participants.filter
        (fun row => row.matchId == "MB")).length = 2
    ∧ procIncomplete.2 = some (.keyError "teamId") := by
  decide

/-- C3 (amended): per-match atomicity does not hold.  `process_match`
commits the `Matches` row first and every participant row separately: a
successful run leaves the match fully present (one participant row per
payload participant), but a run that fails partway leaves the match row
plus exactly the prefix of participant rows committed before the failure —
readable in the store. -/
theorem C3_atomicity_amended :
    ∀ (fields : List String) (d : MatchData)
      (mo : String → List MasteryRecord) (st : ProcState),
    st.store.matchesTable.any (fun row => row.matchId == d.matchId) = false →
    (process_match fields d mo st).1.store.matchesTable
        = st.store.matchesTable ++ [matchRowOf d]
    ∧ (process_match fields d mo st).1.store.participants
        = st.store.participants ++ okRows fields d.matchId d.info.participants
    ∧ ((process_match fields d mo st).2 = none →
        (okRows fields d.matchId d.info.participants).length
          = d.info.participants.length) := by
  intro fields d mo st hfresh
  obtain ⟨h1, h2, h3, h4⟩ := process_match_fresh fields d mo st hfresh
  refine ⟨h1, h2, ?_⟩
  intro hok
  exact okRows_length_of_clean fields d.matchId d.info.participants (h4.mp hok)

/-- Witness for C3 (amended): the incomplete payload at the empty store. -/
theorem C3_atomicity_amended_witness :
    procIncomplete.1.store.matchesTable
        = emptyStore.matchesTable ++ [matchRowOf payloadIncomplete]
    ∧ procIncomplete.1.store.participants
        = emptyStore.participants
          ++ okRows (participantFields sampleSchema) "MB"
            payloadIncomplete.info.participants
    ∧ (procIncomplete.2 = none →
        (okRows (participantFields sampleSchema) "MB"
          payloadIncomplete.info.participants).length
          = payloadIncomplete.info.participants.length) :=
  C3_atomicity_amended (participantFields sampleSchema) payloadIncomplete
    (fun _ => []) ⟨emptyStore, []⟩ (by decide)

/-! ## Claim C4 -/

/-- A complete CLASSIC / MATCHED_GAME payload with ten well-formed
participants. -/
def payloadFull : MatchData := ⟨"MG", sampleInfo "CLASSIC" "MATCHED_GAME" tenParticipants⟩

/-- The database state after the first, successful, `process_match` call on
`payloadFull`. -/
def storeAfterFirst : ProcState :=
  (process_match (participantFields sampleSchema) payloadFull
    (fun _ => [⟨5, 7, 1000⟩]) ⟨emptyStore, []⟩).1

/-- C4, counterexample: the second `process_match` call for the same match
id is **not** a silent no-op — the plain `INSERT INTO Matches` violates the
`matchId` primary key and raises `sqlite3.IntegrityError` (modelled from the
spec's schema, since `schema.sql` is not part of `src/`).  The store is left
with exactly one Match row and 10 ParticipantRecords only because the error
aborts the routine before any write. -/
theorem C4_insert_idempotence_counterexample :
    (process_match (participantFields sampleSchema) payloadFull
        (fun _ => [⟨5, 7, 1000⟩]) storeAfterFirst).2 = some .integrityError
    ∧ (process_match (participantFields sampleSchema) payloadFull
        (fun _ => [⟨5, 7, 1000⟩]) storeAfterFirst).1 = storeAfterFirst
    ∧ storeAfterFirst.store.matchesTable.length = 1
    ∧ (storeAfterFirst.store.participants.filter
        (fun row => row.matchId == "MG")).length = 10 := by
  decide

/-- C4 (amended): calling the match insertion a second time with an existing
match id raises `sqlite3.IntegrityError` (caught and logged by the worker
loop) rather than being a silent no-op; because the error precedes every
participant write, the call changes nothing, so the store still holds
exactly one Match row and the original 10 ParticipantRecords. -/
theorem C4_insert_idempotence_amended :
    ∀ (fields : List String) (d : MatchData)
      (mo : String → List MasteryRecord) (st : ProcState),
    st.store.matchesTable.any (fun row => row.matchId == d.matchId) = true →
    process_match fields d mo st = (st, some .integrityError) :=
  process_match_dup

/-- Witness for C4 (amended): the second call on `storeAfterFirst`. -/
theorem C4_insert_idempotence_amended_witness :
    process_match (participantFields sampleSchema) payloadFull
        (fun _ => [⟨5, 7, 1000⟩]) storeAfterFirst
      = (storeAfterFirst, some .integrityError) :=
  C4_insert_idempotence_amended (participantFields sampleSchema) payloadFull
    (fun _ => [⟨5, 7, 1000⟩]) storeAfterFirst (by decide)

/-! ## Claim C5 -/

/-- A CLASSIC / MATCHED_GAME payload with only three (well-formed, human)
participants. -/
def payloadSmall : MatchData :=
  ⟨"M3", sampleInfo "CLASSIC" "MATCHED_GAME"
    [sampleParticipant "q0", sampleParticipant "q1", sampleParticipant "q2"]⟩

def envSmall : Env :=
  { baseEnv with matchPayload := fun _ => payloadSmall, historyOf := fun _ => [] }

def wSmall : Worker := ⟨"Ada", ["M3", "MZ"], none, true⟩

def smallRun : Worker × SystemState × Option MatchId :=
  (listen_and_commit_step envSmall 0 wSmall freshShared).getD noRun

/-- C5, counterexample: the worker loop applies no participant-count check —
a CLASSIC / MATCHED_GAME payload with only 3 participants is persisted, with
3 ParticipantRecords, refuting "a Match is accepted into the store only if
exactly 10 ParticipantRecords are stored with it". -/
theorem C5_completeness_filter_counterexample :
    "M3" ∈ smallRun.2.1.store.matchesTable.map (fun row => row.matchId)
    ∧ (smallRun.2.1.store.participants.filter
        (fun row => row.matchId == "M3")).length = 3 := by
  decide

/-- C5 (amended): the persisting path checks only game mode, game type and
the absence of `BOT` summoner ids; it never counts participants.  Any
payload passing that filter is persisted with exactly one ParticipantRecord
per payload participant, however many there are. -/
theorem C5_completeness_filter_amended :
    ∀ (env : Env) (i : Nat) (w : Worker) (sh : SystemState) (m : MatchId)
      (rest : List MatchId) (d : MatchData)
      (r : Worker × SystemState × Option MatchId),
    w.queue = m :: rest → rest ≠ [] → m ∉ sh.seenMatches →
    get_match_by_match_id env m = .payload d → d.matchId = m →
    matchFilter d.info = true →
    sh.store.matchesTable.any (fun row => row.matchId == m) = false →
    sh.store.participants.filter (fun row => row.matchId == m) = [] →
    cleanParticipants (participantFields env.schemaColumns)
      d.info.participants = true →
    listen_and_commit_step env i w sh = some r →
    m ∈ r.2.1.store.matchesTable.map (fun row => row.matchId)
    ∧ (r.2.1.store.participants.filter (fun row => row.matchId == m)).length
        = d.info.participants.length := by
  intro env i w sh m rest d r hq hrest hm hf hmid hflt hfresh hpfresh hclean hstep
  have hlock := step_lock_none env i w sh r hstep
  rw [step_eq_accept env i w sh m rest d hlock hq hm hf hflt] at hstep
  rw [finallyRefill_nonempty env i _ _ false (by simpa using hrest)] at hstep
  simp only [Option.some.injEq] at hstep
  subst hstep
  have hfresh2 : ((⟨sh.store, sh.seenMasteries⟩ :
      ProcState)).store.matchesTable.any (fun row => row.matchId == d.matchId)
      = false := by
    rw [hmid]
    exact hfresh
  obtain ⟨h1, h2, h3, h4⟩ := process_match_fresh
    (participantFields env.schemaColumns) d env.masteryOf
    ⟨sh.store, sh.seenMasteries⟩ hfresh2
  constructor
  · show m ∈ ((process_match (participantFields env.schemaColumns) d
      env.masteryOf ⟨sh.store, sh.seenMasteries⟩).1.store.matchesTable.map
        (fun row => row.matchId))
    rw [h1]
    rw [List.map_append]
    apply List.mem_append.mpr
    right
    simp [matchRowOf, hmid]
  · show ((process_match (participantFields env.schemaColumns) d
      env.masteryOf ⟨sh.store, sh.seenMasteries⟩).1.store.participants.filter
        (fun row => row.matchId == m)).length = d.info.participants.length
    rw [h2, List.filter_append]
    have hfilterOk : (okRows (participantFields env.schemaColumns) d.matchId
        d.info.participants).filter (fun row => row.matchId == m)
        = okRows (participantFields env.schemaColumns) d.matchId
            d.info.participants := by
      apply List.filter_eq_self.mpr
      intro a ha
      rw [okRows_matchId (participantFields env.schemaColumns) d.matchId
        d.info.participants a ha, hmid]
      simp
    rw [hpfresh, hfilterOk]
    simp only [List.nil_append]
    exact okRows_length_of_clean (participantFields env.schemaColumns)
      d.matchId d.info.participants hclean

/-- Witness for C5 (amended): the three-participant payload. -/
theorem C5_completeness_filter_amended_witness :
    "M3" ∈ smallRun.2.1.store.matchesTable.map (fun row => row.matchId)
    ∧ (smallRun.2.1.store.participants.filter
        (fun row => row.matchId == "M3")).length
      = payloadSmall.info.participants.length :=
  C5_completeness_filter_amended envSmall 0 wSmall freshShared "M3" ["MZ"]
    payloadSmall smallRun rfl (by decide) (by decide) (by decide) rfl
    (by decide) (by decide) (by decide) (by decide) (by decide)

/-! ## Claim C6 -/

/-- A worker whose queue is empty while it has never accepted a match (for
example, right after seeding from a player with an empty match history). -/
def wStarved : Worker := ⟨"Ada", [], none, true⟩

/-- C6: at the queue-starvation state the code does **not** re-seed from the
original seed player.  The `finally` block runs with `last_valid_match =
None`, and `data["info"]` raises `TypeError` after `lock.acquire()`: the
worker dies with its queue still empty, nothing fetched, and the frontier
lock held forever — any other worker is then permanently blocked (second
conjunct).  This is the code bug behind claim C6. -/
theorem C6_starvation_code_bug :
    listen_and_commit_step baseEnv 0 wStarved freshShared =
      some (⟨"Ada", [], none, false⟩,
        { freshShared with lockHeldBy := some 0 }, none)
    ∧ listen_and_commit_step baseEnv 1 ⟨"Bea", ["MY"], none, true⟩
        { freshShared with lockHeldBy := some 0 } = none := by
  decide

/-! ## Claim C7 -/

/-- C7: a dequeued, previously unseen match is persisted iff its payload
passes `matchFilter` (gameMode `CLASSIC`, gameType `MATCHED_GAME`, no `BOT`
summoner id); a rejected match is fetched but discarded — the store and
`last_valid_match` (the queue-refill source) are untouched — yet its id is
in `seenMatches` after the iteration. -/
theorem C7_accept_filter :
    ∀ (env : Env) (i : Nat) (w : Worker) (sh : SystemState) (m : MatchId)
      (rest : List MatchId) (d : MatchData)
      (r : Worker × SystemState × Option MatchId),
    w.queue = m :: rest → rest ≠ [] → m ∉ sh.seenMatches →
    get_match_by_match_id env m = .payload d → d.matchId = m →
    sh.store.matchesTable.any (fun row => row.matchId == m) = false →
    listen_and_commit_step env i w sh = some r →
    (m ∈ r.2.1.store.matchesTable.map (fun row => row.matchId)
      ↔ matchFilter d.info = true)
    ∧ (matchFilter d.info = false →
        r.2.1.store = sh.store ∧ r.1.lastValidMatch = w.lastValidMatch)
    ∧ m ∈ r.2.1.seenMatches
    ∧ r.2.2 = some m := by
  intro env i w sh m rest d r hq hrest hm hf hmid hfresh hstep
  have hlock := step_lock_none env i w sh r hstep
  cases hflt : matchFilter d.info with
  | true =>
    rw [step_eq_accept env i w sh m rest d hlock hq hm hf hflt] at hstep
    rw [finallyRefill_nonempty env i _ _ false (by simpa using hrest)] at hstep
    simp only [Option.some.injEq] at hstep
    subst hstep
    have hfresh2 : ((⟨sh.store, sh.seenMasteries⟩ :
        ProcState)).store.matchesTable.any (fun row => row.matchId == d.matchId)
        = false := by
      rw [hmid]
      exact hfresh
    obtain ⟨h1, h2, h3, h4⟩ := process_match_fresh
      (participantFields env.schemaColumns) d env.masteryOf
      ⟨sh.store, sh.seenMasteries⟩ hfresh2
    refine ⟨?_, ?_, ?_, rfl⟩
    · constructor
      · intro _
        rfl
      · intro _
        show m ∈ ((process_match (participantFields env.schemaColumns) d
          env.masteryOf ⟨sh.store, sh.seenMasteries⟩).1.store.matchesTable.map
            (fun row => row.matchId))
        rw [h1, List.map_append]
        apply List.mem_append.mpr
        right
        simp [matchRowOf, hmid]
    · intro hcontra
      exact absurd hcontra (by simp)
    · show m ∈ setAdd sh.seenMatches m
      rw [mem_setAdd_iff]
      exact Or.inl rfl
  | false =>
    rw [step_eq_reject env i w sh m rest d hlock hq hm hf hflt] at hstep
    rw [finallyRefill_nonempty env i _ _ false (by simpa using hrest)] at hstep
    simp only [Option.some.injEq] at hstep
    subst hstep
    refine ⟨?_, fun _ => ⟨rfl, rfl⟩, ?_, rfl⟩
    · constructor
      · intro hmem
        exact absurd hmem (any_matchId_false_not_mem sh.store.matchesTable m hfresh)
      · intro hcontra
        exact absurd hcontra (by simp)
    · show m ∈ setAdd sh.seenMatches m
      rw [mem_setAdd_iff]
      exact Or.inl rfl

/-- Worker about to drain `M1` (CLASSIC accept case). -/
def wM1 : Worker := ⟨"Ada", ["M1", "MZ"], none, true⟩

def m1run : Worker × SystemState × Option MatchId :=
  (listen_and_commit_step baseEnv 0 wM1 freshShared).getD noRun

/-- Worker about to drain `M2` (ARAM reject case). -/
def wM2 : Worker := ⟨"Ada", ["M2", "MZ"], none, true⟩

def m2run : Worker × SystemState × Option MatchId :=
  (listen_and_commit_step baseEnv 0 wM2 freshShared).getD noRun

/-- The full "Ada" scenario: seed from "Ada" (history `[M1, M2]`), then two
worker iterations. -/
def scenarioSeed : Worker × SystemState :=
  (seedWorker baseEnv 0 "Ada" freshShared).getD (⟨"Ada", [], none, false⟩, freshShared)

def scenarioRun : MultiState × List MatchId :=
  runSchedule baseEnv ⟨[scenarioSeed.1], scenarioSeed.2⟩ [0, 0]

/-- Witness for C7: the accept and reject cases at concrete inputs, and the
spec's "Ada" scenario — `Matches` ends with exactly the row `M1` while
`seenMatches` contains both `M1` and `M2`. -/
theorem C7_accept_filter_witness :
    scenarioRun.1.shared.store.matchesTable.map (fun row => row.matchId) = ["M1"]
    ∧ "M1" ∈ scenarioRun.1.shared.seenMatches
    ∧ "M2" ∈ scenarioRun.1.shared.seenMatches
    ∧ "M1" ∈ m1run.2.1.store.matchesTable.map (fun row => row.matchId)
    ∧ (m2run.2.1.store = freshShared.store
        ∧ m2run.1.lastValidMatch = wM2.lastValidMatch) :=
  ⟨by decide, by decide, by decide,
   (C7_accept_filter baseEnv 0 wM1 freshShared "M1" ["MZ"] payloadM1 m1run rfl
     (by decide) (by decide) (by decide) rfl (by decide) (by decide)).1.mpr
     (by decide),
   (C7_accept_filter baseEnv 0 wM2 freshShared "M2" ["MZ"] payloadM2 m2run rfl
     (by decide) (by decide) (by decide) rfl (by decide) (by decide)).2.1
     (by decide)⟩

/-! ## Claim C8 -/

/-- C8: transient statuses (429/500/503) are retried a bounded number of
times — at most `REQUEST_RETRY_COUNT = 5` retries, i.e. at most 6 requests
in total, with a fixed 5-second wait between retries in the source; two
429s followed by a 200 succeed on the third request; an exhausted retry
surfaces as an `HTTPError` handled inside the worker loop — the worker
stays alive and the store is untouched (only that unit of work is lost);
and in the two-429s-then-success case the match ends up persisted exactly
once. -/
theorem C8_transient_retry :
    (∀ (server : Nat → Nat) (s n : Nat),
      get_with_retry server = .response s n → n ≤ REQUEST_RETRY_COUNT + 1)
    ∧ (∀ server : Nat → Nat, server 0 = 429 → server 1 = 429 → server 2 = 200 →
        get_with_retry server = .response 200 3)
    ∧ (∀ (env : Env) (i : Nat) (w : Worker) (sh : SystemState) (m : MatchId)
        (rest : List MatchId) (s : Nat)
        (r : Worker × SystemState × Option MatchId),
        w.queue = m :: rest → rest ≠ [] → m ∉ sh.seenMatches →
        get_match_by_match_id env m = .httpError s →
        listen_and_commit_step env i w sh = some r →
        r.1.alive = true ∧ r.2.1.store = sh.store ∧ r.1.queue = rest)
    ∧ (∀ (env : Env) (i : Nat) (w : Worker) (sh : SystemState) (m : MatchId)
        (rest : List MatchId) (d : MatchData)
        (r : Worker × SystemState × Option MatchId),
        w.queue = m :: rest → rest ≠ [] → m ∉ sh.seenMatches →
        env.matchServer m 0 = 429 → env.matchServer m 1 = 429 →
        env.matchServer m 2 = 200 → env.matchPayload m = d → d.matchId = m →
        matchFilter d.info = true →
        sh.store.matchesTable.any (fun row => row.matchId == m) = false →
        listen_and_commit_step env i w sh = some r →
        (r.2.1.store.matchesTable.filter
          (fun row => row.matchId == m)).length = 1) := by
  refine ⟨?_, ?_, ?_, ?_⟩
  · intro server s n h
    unfold get_with_retry at h
    cases hbeq : server 0 == 403 with
    | true => rw [hbeq] at h; simp at h
    | false =>
      rw [hbeq] at h
      simp only [Bool.false_eq_true, if_false, RetryResult.response.injEq] at h
      have := retryLoop_le server 0 REQUEST_RETRY_COUNT
      omega
  · intro server h0 h1 h2
    have h := retry_two_transients_then_ok server
      (by rw [h0]; rfl) (by rw [h1]; rfl) (by rw [h2]; rfl)
    rw [h2] at h
    exact h
  · intro env i w sh m rest s r hq hrest hm hf hstep
    have hlock := step_lock_none env i w sh r hstep
    rw [step_eq_http env i w sh m rest s hlock hq hm hf] at hstep
    rw [finallyRefill_nonempty env i _ _ false (by simpa using hrest)] at hstep
    simp only [Option.some.injEq] at hstep
    subst hstep
    exact ⟨rfl, rfl, rfl⟩
  · intro env i w sh m rest d r hq hrest hm h0 h1 h2 hpay hmid hflt hfresh hstep
    have hretry : get_with_retry (env.matchServer m) = .response 200 3 := by
      have h := retry_two_transients_then_ok (env.matchServer m)
        (by rw [h0]; rfl) (by rw [h1]; rfl) (by rw [h2]; rfl)
      rw [h2] at h
      exact h
    have hf : get_match_by_match_id env m = .payload d := by
      unfold get_match_by_match_id
      rw [hretry, hpay]
      rfl
    have hlock := step_lock_none env i w sh r hstep
    rw [step_eq_accept env i w sh m rest d hlock hq hm hf hflt] at hstep
    rw [finallyRefill_nonempty env i _ _ false (by simpa using hrest)] at hstep
    simp only [Option.some.injEq] at hstep
    subst hstep
    have hfresh2 : ((⟨sh.store, sh.seenMasteries⟩ :
        ProcState)).store.matchesTable.any (fun row => row.matchId == d.matchId)
        = false := by
      rw [hmid]
      exact hfresh
    obtain ⟨h1', h2', h3', h4'⟩ := process_match_fresh
      (participantFields env.schemaColumns) d env.masteryOf
      ⟨sh.store, sh.seenMasteries⟩ hfresh2
    show (((process_match (participantFields env.schemaColumns) d
      env.masteryOf ⟨sh.store, sh.seenMasteries⟩).1.store.matchesTable).filter
        (fun row => row.matchId == m)).length = 1
    rw [h1']
    exact filter_matchId_append_singleton sh.store.matchesTable m
      (matchRowOf d) hfresh (by simp [matchRowOf, hmid])

/-- Server answering 429 twice, then 200. -/
def env429 : Env :=
  { baseEnv with matchServer := fun _ j => if j < 2 then 429 else 200 }

/-- Server answering 429 to every request (retry exhaustion). -/
def envExhaust : Env := { baseEnv with matchServer := fun _ _ => 429 }

def w429 : Worker := ⟨"Ada", ["M1", "MZ"], none, true⟩

def run429 : Worker × SystemState × Option MatchId :=
  (listen_and_commit_step env429 0 w429 freshShared).getD noRun

def runExhaust : Worker × SystemState × Option MatchId :=
  (listen_and_commit_step envExhaust 0 w429 freshShared).getD noRun

/-- Witness for C8, at concrete inputs. -/
theorem C8_transient_retry_witness :
    3 ≤ REQUEST_RETRY_COUNT + 1
    ∧ get_with_retry (fun j => if j < 2 then 429 else 200) = .response 200 3
    ∧ (runExhaust.1.alive = true ∧ runExhaust.2.1.store = freshShared.store
        ∧ runExhaust.1.queue = ["MZ"])
    ∧ (run429.2.1.store.matchesTable.filter
        (fun row => row.matchId == "M1")).length = 1 :=
  ⟨C8_transient_retry.1 (fun j => if j < 2 then 429 else 200) 200 3
     (C8_transient_retry.2.1 (fun j => if j < 2 then 429 else 200) rfl rfl rfl),
   C8_transient_retry.2.1 (fun j => if j < 2 then 429 else 200) rfl rfl rfl,
   C8_transient_retry.2.2.1 envExhaust 0 w429 freshShared "M1" ["MZ"] 429
     runExhaust rfl (by decide) (by decide) (by decide) (by decide),
   C8_transient_retry.2.2.2 env429 0 w429 freshShared "M1" ["MZ"] payloadM1
     run429 rfl (by decide) (by decide) rfl rfl rfl rfl rfl (by decide)
     (by decide) (by decide)⟩

/-! ## Claim C10 -/

/-- C10: `get_with_retry` checks 403 only on the first response.  A retry
attempt (entered on a transient first status) that returns 403 is simply
returned; the caller's `raise_for_status` turns it into an ordinary
`HTTPError`, which the worker loop catches — only that unit of work is
skipped, the worker stays alive and nothing is persisted. -/
theorem C10_retry_403_not_fatal :
    (∀ server : Nat → Nat, isTransientStatus (server 0) = true →
      server 1 = 403 →
      get_with_retry server = .response 403 2 ∧ raise_for_status 403 = true)
    ∧ (∀ (env : Env) (i : Nat) (w : Worker) (sh : SystemState) (m : MatchId)
        (rest : List MatchId) (r : Worker × SystemState × Option MatchId),
        w.queue = m :: rest → rest ≠ [] → m ∉ sh.seenMatches →
        isTransientStatus (env.matchServer m 0) = true →
        env.matchServer m 1 = 403 →
        listen_and_commit_step env i w sh = some r →
        r.2.2 = some m ∧ r.1.alive = true ∧ r.2.1.store = sh.store) := by
  constructor
  · intro server h0 h1
    refine ⟨?_, by decide⟩
    have h := retry_one_transient_then_stop server h0 (by rw [h1]; rfl)
    rw [h1] at h
    exact h
  · intro env i w sh m rest r hq hrest hm h0 h1 hstep
    have hretry : get_with_retry (env.matchServer m) = .response 403 2 := by
      have h := retry_one_transient_then_stop (env.matchServer m) h0
        (by rw [h1]; rfl)
      rw [h1] at h
      exact h
    have hf : get_match_by_match_id env m = .httpError 403 := by
      unfold get_match_by_match_id
      rw [hretry]
      rfl
    have hlock := step_lock_none env i w sh r hstep
    rw [step_eq_http env i w sh m rest 403 hlock hq hm hf] at hstep
    rw [finallyRefill_nonempty env i _ _ false (by simpa using hrest)] at hstep
    simp only [Option.some.injEq] at hstep
    subst hstep
    exact ⟨rfl, rfl, rfl⟩

/-- Server answering 429 then 403. -/
def env429then403 : Env :=
  { baseEnv with matchServer := fun _ j => if j == 0 then 429 else 403 }

def wRetry : Worker := ⟨"Ada", ["M1", "MZ"], none, true⟩

def run429then403 : Worker × SystemState × Option MatchId :=
  (listen_and_commit_step env429then403 0 wRetry freshShared).getD noRun

/-- Witness for C10, at concrete inputs. -/
theorem C10_retry_403_not_fatal_witness :
    (get_with_retry (fun j => if j == 0 then 429 else 403) = .response 403 2
      ∧ raise_for_status 403 = true)
    ∧ (run429then403.2.2 = some "M1" ∧ run429then403.1.alive = true
        ∧ run429then403.2.1.store = freshShared.store) :=
  ⟨C10_retry_403_not_fatal.1 (fun j => if j == 0 then 429 else 403) rfl rfl,
   C10_retry_403_not_fatal.2 env429then403 0 wRetry freshShared "M1" ["MZ"]
     run429then403 rfl (by decide) (by decide) rfl rfl (by decide)⟩

/-! ## Claim C9 -/

/-- C9: a fresh bootstrap re-derives the dedup sets from the durable store —
every committed match id is in `seenMatches`, every `SeenPlayers` row in
`seenPlayers`, every mastery owner in `seenMasteries`; seeding never
changes `seenMatches` (and, by construction of the model, issues no
match-detail fetch); and during any subsequent schedule of worker
iterations, no match id that was in `seenMatches` at bootstrap is ever
fetched from the remote service again — even if it sits in some worker's
queue via a seed player's history. -/
theorem C9_resumability :
    (∀ (store : Store) (M : MatchId),
      M ∈ store.matchesTable.map (fun row => row.matchId) →
      M ∈ (bootShared store).seenMatches)
    ∧ (∀ (store : Store) (n : String), n ∈ store.seenPlayersTable →
        n ∈ (bootShared store).seenPlayers)
    ∧ (∀ (store : Store) (n : String),
        n ∈ store.masteries.map (fun row => row.summonerName) →
        n ∈ (bootShared store).seenMasteries)
    ∧ (∀ (env : Env) (i : Nat) (s : String) (sh : SystemState) (w : Worker)
        (sh2 : SystemState), seedWorker env i s sh = some (w, sh2) →
        sh2.seenMatches = sh.seenMatches)
    ∧ (∀ (env : Env) (ms : MultiState) (sched : List Nat) (M : MatchId),
        M ∈ ms.shared.seenMatches → M ∉ (runSchedule env ms sched).2) := by
  refine ⟨?_, ?_, ?_, ?_, ?_⟩
  · intro store M h
    show M ∈ (load_seen_state store).2.1
    simp only [load_seen_state, List.mem_dedup]
    exact h
  · intro store n h
    show n ∈ (load_seen_state store).1
    simp only [load_seen_state, List.mem_dedup]
    exact h
  · intro store n h
    show n ∈ (load_seen_state store).2.2
    simp only [load_seen_state, List.mem_dedup]
    exact h
  · intro env i s sh w sh2 h
    unfold seedWorker at h
    cases hl : sh.lockHeldBy.isSome with
    | true => rw [hl] at h; simp at h
    | false =>
      rw [hl] at h
      simp only [Bool.false_eq_true, if_false] at h
      cases hok : (add_player_match_history env s [] sh.seenPlayers
          sh.seenMatches sh.store).ok with
      | true =>
        rw [hok] at h
        simp only [if_true, Option.some.injEq, Prod.mk.injEq] at h
        rw [← h.2]
      | false =>
        rw [hok] at h
        simp only [Bool.false_eq_true, if_false, Option.some.injEq,
          Prod.mk.injEq] at h
        rw [← h.2]
  · intro env ms sched M hM
    exact runSchedule_no_refetch env M sched ms hM

/-- A store holding the committed match `M1`, one seen player and one
mastery owner. -/
def storeWithM : Store :=
  ⟨[matchRowOf payloadM1], [⟨[1, 100], "M1"⟩], [⟨5, 7, 1000, "Old"⟩], ["Old"]⟩

/-- A bootstrapped system whose single worker even has `M1` queued (as if it
appeared in a seed player's history). -/
def msBoot : MultiState :=
  ⟨[⟨"Ada", ["M1", "M2"], none, true⟩], bootShared storeWithM⟩

def seedBoot : Worker × SystemState :=
  (seedWorker baseEnv 0 "Ada" (bootShared storeWithM)).getD
    (⟨"Ada", [], none, false⟩, bootShared storeWithM)

/-- Witness for C9, at concrete inputs. -/
theorem C9_resumability_witness :
    "M1" ∈ (bootShared storeWithM).seenMatches
    ∧ "Old" ∈ (bootShared storeWithM).seenPlayers
    ∧ "Old" ∈ (bootShared storeWithM).seenMasteries
    ∧ seedBoot.2.seenMatches = (bootShared storeWithM).seenMatches
    ∧ "M1" ∉ (runSchedule baseEnv msBoot [0, 0, 0]).2 :=
  ⟨C9_resumability.1 storeWithM "M1" (by decide),
   C9_resumability.2.1 storeWithM "Old" (by decide),
   C9_resumability.2.2.1 storeWithM "Old" (by decide),
   C9_resumability.2.2.2.1 baseEnv 0 "Ada" (bootShared storeWithM) seedBoot.1
     seedBoot.2 (by decide),
   C9_resumability.2.2.2.2 baseEnv msBoot [0, 0, 0] "M1" (by decide)⟩

end Teamcomp
